import Mathlib

/-!
A verification development for the axiom-profiler SMT-solver log parser and its
instantiation-graph construction.

The Rust sources are embedded shallowly:

* A handler mutating `&mut self` and returning `Option<()>` becomes a function
  `Z3Parser → ... → Option Z3Parser`.  Both a returned `None` and a Rust panic
  (`unwrap`, `expect`, `assert!`, out-of-range indexing) are modelled as the
  result `Option.none`: either way the handler fails and parsing of the file
  stops at that line.  On such a failure the partial writes of the failing
  handler are discarded (in Rust they stay in `&mut self`; since parsing stops
  at the first failing line, only the post-error state differs, never any
  parsing decision).
* `FxHashMap` / `BTreeMap` become association lists with overwrite-on-insert
  (`ainsert`); no code iterates over a hash map, so the representation order is
  never observed.
* The `Vec<InstIdx>` instantiation stack (push / pop / last all at the back)
  becomes a list whose head is the stack top; the stack is only ever used
  through push, pop and last.
* `TiVec` arenas become lists indexed by position; `push_and_get_key` appends
  and returns the old length.
* `f64` costs: the program only ever assigns `0.0` or `1.0` to a cost and adds
  `1.0` to it, so a cost is always an integer-valued float and every float
  operation it performs is exact for any realisable count; costs are embedded
  as `Nat`.
* Types from `items.rs` and the driver in `parsers/mod.rs` are not part of the
  given sources; where needed they are reconstructed from the specification and
  marked `Modelled from the spec:`.
-/

set_option autoImplicit false

namespace AxiomProfiler

/-! ## Generic association-list maps (embedding of `FxHashMap` / `BTreeMap`) -/

/-- Lookup in an association-list map: the value of the first entry with the
given key. -/
def alookup {α β : Type} [DecidableEq α] (l : List (α × β)) (k : α) : Option β :=
  (l.find? (fun p => decide (p.1 = k))).map (fun p => p.2)

/-- Insert into an association-list map, overwriting any previous binding of
the key (the semantics of `HashMap::insert`). -/
def ainsert {α β : Type} [DecidableEq α] (l : List (α × β)) (k : α) (v : β) : List (α × β) :=
  (k, v) :: l.filter (fun p => decide (p.1 ≠ k))

/-- Update the value bound to a key in place (the semantics of mutating
through `HashMap::get_mut`); a no-op when the key is absent. -/
def aupdate {α β : Type} [DecidableEq α] (l : List (α × β)) (k : α) (f : β → β) :
    List (α × β) :=
  l.map (fun p => if p.1 = k then (p.1, f p.2) else p)

/-- In-place update of the element at an index (the semantics of writing
through `vec[i]`); indexing panics are checked separately by the callers. -/
def listModify {α : Type} : List α → Nat → (α → α) → List α
  | [], _, _ => []
  | a :: l, 0, f => f a :: l
  | a :: l, i + 1, f => a :: listModify l i f

/-- Rust `str::strip_prefix`: remove the prefix, or fail. -/
def stripPrefixOpt (s p : String) : Option String :=
  if s.startsWith p then some (s.drop p.length) else none

/-- Rust `str::strip_suffix`: remove the suffix, or fail. -/
def stripSuffixOpt (s p : String) : Option String :=
  if s.endsWith p then some (s.dropRight p.length) else none

/-- The value of a decimal digit character. -/
def digitVal (c : Char) : Option Nat :=
  if c = '0' then some 0 else if c = '1' then some 1 else if c = '2' then some 2
  else if c = '3' then some 3 else if c = '4' then some 4 else if c = '5' then some 5
  else if c = '6' then some 6 else if c = '7' then some 7 else if c = '8' then some 8
  else if c = '9' then some 9 else none

/-- Accumulate a run of decimal digits. -/
def parseNatGo : List Char → Nat → Option Nat
  | [], acc => some acc
  | c :: cs, acc =>
    match digitVal c with
    | some d => parseNatGo cs (acc * 10 + d)
    | none => none

/-- Rust `str::parse::<usize>` (standard library, not repository code): an
optional leading `+` followed by a non-empty run of decimal digits.  Overflow
of the machine integer — a parse failure in Rust — is not modelled; the
numerals of this development are all far below it. -/
def parseNat (s : String) : Option Nat :=
  match s.data with
  | [] => none
  | '+' :: [] => none
  | '+' :: cs => parseNatGo cs 0
  | cs => parseNatGo cs 0

/-! ## The entity model (`items.rs` is not among the sources, so the record
shapes are reconstructed from their uses in `z3parser.rs` and from the spec's
data-model section). -/

/-- Dependency kinds: term-provenance, equality-provenance, or the no-cause
placeholder (`DepType::None`). -/
inductive DepType : Type where
  | Term : DepType
  | Equality : DepType
  | None : DepType
deriving DecidableEq

/-- A term's attached theory meaning. -/
structure Meaning : Type where
  theory : String
  value : String
deriving DecidableEq

/-- Modelled from the spec: `TermKind` of `items.rs` is not among the sources;
the spec lists quantifier / bound-variable / function-application / composite
(proof) kinds.  `Quant` carries the paired quantifier index as in
`TermKind::Quant(qidx)`. -/
inductive TermKind : Type where
  | Quant : Nat → TermKind
  | Var : String → TermKind
  | App : String → TermKind
  | ProofApp : String → TermKind
deriving DecidableEq

/-- Modelled from the spec: `TermKind::quant_idx` returns the owning
quantifier index of a quantifier term and nothing otherwise. -/
def TermKind.quant_idx : TermKind → Option Nat
  | TermKind.Quant q => some q
  | _ => none

/-- Modelled from the spec: `TermKind::parse_var` accepts a variable kind
tag. -/
def TermKind.parse_var (s : String) : Option TermKind :=
  some (TermKind.Var s)

/-- Modelled from the spec: `TermKind::parse_proof_app` distinguishes proof
steps from ordinary applications by the `is_proof` flag. -/
def TermKind.parse_proof_app (is_proof : Bool) (s : String) : TermKind :=
  if is_proof then TermKind.ProofApp s else TermKind.App s

/-- Equality explanations attached to a term (`EqualityExpl` in `items.rs`,
whose variants and fields are all visible in `eq_expl` of `z3parser.rs`). -/
inductive EqualityExpl : Type where
  | Root : (id : Nat) → EqualityExpl
  | Literal : (from' : Nat) → (eq : Nat) → (to' : Nat) → EqualityExpl
  | Congruence : (from' : Nat) → (arg_eqs : List (Nat × Nat)) → (to' : Nat) → EqualityExpl
  | Theory : (from' : Nat) → (theory : String) → (to' : Nat) → EqualityExpl
  | Axiom : (from' : Nat) → (to' : Nat) → EqualityExpl
  | Unknown : (kind : String) → (from' : Nat) → (args : List String) → (to' : Nat) → EqualityExpl
deriving DecidableEq

/-- Modelled from the spec: `EqualityExpl::from_to` (used as a filter in
`new_match`) returns the endpoints of the explained equality; a `Root`
explanation relates a term to itself. -/
def EqualityExpl.from_to : EqualityExpl → Nat × Nat
  | EqualityExpl.Root id => (id, id)
  | EqualityExpl.Literal f _ t => (f, t)
  | EqualityExpl.Congruence f _ t => (f, t)
  | EqualityExpl.Theory f _ t => (f, t)
  | EqualityExpl.Axiom f t => (f, t)
  | EqualityExpl.Unknown _ f _ t => (f, t)

/-- A solver expression node (`Term` in `items.rs`; every field appears in the
`Term` literals constructed in `z3parser.rs`). -/
structure Term : Type where
  id : String
  kind : TermKind
  meaning : Option Meaning
  child_ids : List Nat
  dep_term_ids : List Nat
  resp_inst : Option Nat
  equality_expls : List EqualityExpl
deriving DecidableEq

/-- Modelled from the spec: `QuantKind` distinguishes named user quantifiers
from solver-synthesized ones carrying the synthesis method name
(`QuantKind::Other(method)` in `discovered_quant`). -/
inductive QuantKind : Type where
  | Named : String → QuantKind
  | Other : String → QuantKind
deriving DecidableEq

/-- Modelled from the spec: `QuantKind::parse` turns the display name of a
declared quantifier into its kind. -/
def QuantKind.parse (s : String) : QuantKind :=
  QuantKind.Named s

/-- Variable-name metadata for a quantifier: either type-only tuples or
name-and-type tuples (`VarNames` in `items.rs`, both variants built in
`gobble_var_names_list`). -/
inductive VarNames : Type where
  | TypeOnly : List String → VarNames
  | NameAndType : List (String × String) → VarNames
deriving DecidableEq

/-- A quantifier record (`Quantifier` in `items.rs`; every field appears in
the literals built by `mk_quant` and `discovered_quant`). -/
structure Quantifier : Type where
  kind : QuantKind
  num_vars : Nat
  term : Option Nat
  instances : List Nat
  cost : Nat
  vars : Option VarNames
deriving DecidableEq

/-- One item of an instantiation's blame list: a single blamed term or a pair
of terms asserted equal. -/
inductive BlamedTermItem : Type where
  | Single : Nat → BlamedTermItem
  | Pair : Nat → Nat → BlamedTermItem
deriving DecidableEq

/-- One firing of a quantifier (`Instantiation` in `items.rs`; every field
appears in the literals built by `new_match` and `inst_discovered`).  The
fingerprint is kept as the opaque log token. -/
structure Instantiation : Type where
  match_line_no : Nat
  line_no : Option Nat
  fingerprint : String
  resulting_term : Option Nat
  z3_gen : Option Nat
  cost : Nat
  quant : Nat
  quant_discovered : Bool
  pattern : Option Nat
  yields_terms : List Nat
  bound_terms : List Nat
  blamed_terms : List BlamedTermItem
  equality_expls : List Nat
  dep_instantiations : List Nat
deriving DecidableEq

/-- A causal edge candidate (`Dependency` in `items.rs`; every field appears
in the literals built by `add_dependency` and
`add_blank_dependency_if_needed`). -/
structure Dependency : Type where
  from' : Nat
  to' : Option Nat
  blamed : Option Nat
  dep_type : DepType
  quant : Nat
  quant_discovered : Bool
deriving DecidableEq

/-- Synthesis keys for lazily discovered quantifiers (`DiscoveredId`, both
variants visible in `inst_discovered`). -/
inductive DiscoveredId : Type where
  | TheorySolving : String → DiscoveredId
  | MBQI : DiscoveredId
deriving DecidableEq

/-- Modelled from the spec: the validated solver name and semantic version of
the `version` line (`VersionInfo` in `parsers/mod.rs`). -/
structure VersionInfo : Type where
  solver : String
  version : Nat × Nat × Nat
deriving DecidableEq

/-- The identifier resolution table (`IdxMap` in `z3parser.rs`). -/
structure IdxMap : Type where
  term_map : List (String × Nat)
  discovered_map : List (DiscoveredId × Nat)
deriving DecidableEq

/-- The parser state (`Z3Parser` in `z3parser.rs`).  The legacy
`line_nr_of_node` / `node_of_line_nr` / `qi_graph` fields of the Rust struct
are never read or written by any of the embedded operations
(`get_instantiation_graph` builds fresh local ones) and are omitted. -/
structure Z3Parser : Type where
  version_info : Option VersionInfo
  idx_map : IdxMap
  terms : List Term
  quantifiers : List Quantifier
  matches' : List (String × Instantiation)
  instantiations : List Instantiation
  inst_stack : List Nat
  temp_dependencies : List (Nat × List Dependency)
  dependencies : List Dependency
deriving DecidableEq

/-- `Z3Parser::default`: the empty parser state. -/
def Z3Parser.default : Z3Parser where
  version_info := none
  idx_map := { term_map := [], discovered_map := [] }
  terms := []
  quantifiers := []
  matches' := []
  instantiations := []
  inst_stack := []
  temp_dependencies := []
  dependencies := []

/-! ## Identifier resolution (`IdxMap` methods) -/

/-- Modelled from the spec: `TermIdCow::parse` lives in `items.rs`, which is
not among the sources.  The spec says identifiers are compared as opaque
strings; the separator token `";"` (and the empty token) is not an identifier,
all other tokens are kept as opaque ids. -/
def TermIdCow.parse (s : String) : Option String :=
  if s = ";" ∨ s = "" then none else some s

/-- Modelled from the spec: `Fingerprint::parse` lives in `items.rs`; the
fingerprint is an opaque solver-chosen correlation key, kept as its token. -/
def Fingerprint.parse (s : String) : Option String :=
  if s = ";" ∨ s = "" then none else some s

/-- `IdxMap::register_term`: bind a textual id to a term index, overwriting
any prior binding for that exact id. -/
def IdxMap.register_term (m : IdxMap) (id : String) (idx : Nat) : IdxMap :=
  { m with term_map := ainsert m.term_map id idx }

/-- `IdxMap::get_term`: the current binding of a textual id. -/
def IdxMap.get_term (m : IdxMap) (id : String) : Option Nat :=
  alookup m.term_map id

/-- A sequence of `register_term` calls applied in order (the claim C8
quantifies over such sequences). -/
def IdxMap.registerAll (m : IdxMap) (regs : List (String × Nat)) : IdxMap :=
  regs.foldl (fun m r => m.register_term r.1 r.2) m

/-- `Z3Parser::parse_existing_id`: parse an id token and resolve it through
the table.  The Rust code `.unwrap()`s the lookup, so an unresolvable id is a
panic; both the parse failure and the panic are modelled as `none`. -/
def parse_existing_id (s : Z3Parser) (id : String) : Option Nat := do
  let tid ← TermIdCow.parse id
  s.idx_map.get_term tid

/-- `Z3Parser::gobble_children`: resolve every remaining token as an existing
term id. -/
def gobble_children (s : Z3Parser) (l : List String) : Option (List Nat) :=
  l.mapM (parse_existing_id s)

/-- `Z3Parser::new_term`: append a term to the arena, record this new index in
the `dep_term_ids` of each child, and register its id.  Children resolved by
`parse_existing_id` are always in range, so the `terms[*c]` indexing cannot
panic. -/
def new_term (s : Z3Parser) (id : String) (term : Term) : Z3Parser × Nat :=
  let idx := s.terms.length
  let terms' := term.child_ids.foldl
    (fun ts c => listModify ts c (fun t => { t with dep_term_ids := t.dep_term_ids ++ [idx] }))
    s.terms
  ({ s with terms := terms' ++ [term],
            idx_map := s.idx_map.register_term id idx }, idx)

/-- `Z3Parser::discovered_quant`: get-or-insert a synthesized quantifier for a
discovery key (`IdxMap::discovered_quant` with the push-closure inlined, as in
the source). -/
def discovered_quant (s : Z3Parser) (id : DiscoveredId) (method : String) : Z3Parser × Nat :=
  match alookup s.idx_map.discovered_map id with
  | some q => (s, q)
  | none =>
    let q := s.quantifiers.length
    let quant : Quantifier :=
      { kind := QuantKind.Other method, num_vars := 0, term := none,
        instances := [], cost := 0, vars := none }
    ({ s with quantifiers := s.quantifiers ++ [quant],
              idx_map := { s.idx_map with
                discovered_map := ainsert s.idx_map.discovered_map id q } }, q)

/-! ## Tokenization helpers (`gobble_tuples` and friends) -/

/-- `Z3Parser::iter_until_eq`: split the token stream at the terminator; the
first component is everything before it, the second everything after it (the
terminator itself is consumed). -/
def iter_until_eq (l : List String) (e : String) : List String × List String :=
  (l.takeWhile (fun x => decide (x ≠ e)), (l.dropWhile (fun x => decide (x ≠ e))).drop 1)

/-- `Z3Parser::expect_completed`: succeed exactly when no tokens remain. -/
def expect_completed (l : List String) : Option Unit :=
  match l with
  | [] => some ()
  | _ => none

/-- Strip the surrounding parentheses of a parsed tuple (the final step of one
`gobble` in `gobble_tuples`). -/
def strip_tuple_parens (a b : String) : Option (String × String) := do
  let a' ← stripPrefixOpt a "("
  let b' ← stripSuffixOpt b ")"
  pure (a', b')

/-- `Z3Parser::gobble_tuples`: parse a run of tuples in one of the three forms
`(A;B)`, `(A B)`, `(A ; B)` (0, 1 and 2 "spaces" respectively).  `spaces`
remembers the form of the first tuple; when `formsEqual` is set, any tuple in
a different form fails.  A malformed tuple makes the whole run fail, mirroring
the `collect::<Option<_>>` of the callers. -/
def gobble_tuples (formsEqual : Bool) : Option Nat → List String → Option (List (String × String))
  | _, [] => some []
  | spaces, first :: l =>
    if first.endsWith ")" then
      let sp := spaces.getD 0
      if formsEqual && sp ≠ 0 then none
      else
        match first.splitOn ";" with
        | a :: b :: _ => do
          let t ← strip_tuple_parens a b
          let rest ← gobble_tuples formsEqual (some sp) l
          pure (t :: rest)
        | _ => none
    else
      match l with
      | [] => none
      | middle :: l2 =>
        if middle ≠ ";" then
          let sp := spaces.getD 1
          if formsEqual && sp ≠ 1 then none
          else do
            let t ← strip_tuple_parens first middle
            let rest ← gobble_tuples formsEqual (some sp) l2
            pure (t :: rest)
        else
          match l2 with
          | [] => none
          | second :: l3 =>
            let sp := spaces.getD 2
            if formsEqual && sp ≠ 2 then none
            else do
              let t ← strip_tuple_parens first second
              let rest ← gobble_tuples formsEqual (some sp) l3
              pure (t :: rest)

/-- `strip_bars` of `gobble_var_names_list`: both components must be wrapped
in `|` bars. -/
def strip_bars (p : String × String) : Option (String × String) := do
  let a ← stripPrefixOpt p.1 "|"
  let a' ← stripSuffixOpt a "|"
  let b ← stripPrefixOpt p.2 "|"
  let b' ← stripSuffixOpt b "|"
  pure (a', b')

/-- `Z3Parser::gobble_var_names_list`: a non-empty tuple list; an empty first
component selects the type-only form (every later tuple must also have an
empty first component), otherwise every tuple is a bar-quoted name/type
pair. -/
def gobble_var_names_list (l : List String) : Option VarNames := do
  let ts ← gobble_tuples true none l
  match ts with
  | [] => none
  | (first, second) :: rest =>
    if first = "" then do
      let types ← rest.mapM (fun t =>
        match t with
        | ("", s) => some s
        | _ => none)
      pure (VarNames.TypeOnly (second :: types))
    else do
      let firstNT ← strip_bars (first, second)
      let restNT ← rest.mapM strip_bars
      pure (VarNames.NameAndType (firstNT :: restNT))

/-- `Z3Parser::gobble_id_pairs`: parse a tuple run and resolve both components
of every tuple as existing term ids. -/
def gobble_id_pairs (s : Z3Parser) (l : List String) : Option (List (Nat × Nat)) := do
  let ts ← gobble_tuples true none l
  ts.mapM (fun t => do
    let a ← parse_existing_id s t.1
    let b ← parse_existing_id s t.2
    pure (a, b))

/-! ## Dependency resolver -/

/-- `Z3Parser::add_dependency`: find the instantiation (if any) that produced
the blamed term and build a provisional dependency from its already-known
instantiation line.  The outer `Option` is failure (an indexing panic or the
`line_no.unwrap()` panic), the inner `Option` is the function's own result:
`none` when the term has no responsible instantiation. -/
def add_dependency (s : Z3Parser) (from_term : Nat) (dep_type : DepType) :
    Option (Option (Nat × Dependency)) := do
  let eq_term ← s.terms.get? from_term
  match eq_term.resp_inst with
  | none => pure none
  | some inst => do
    let instantiation ← s.instantiations.get? inst
    let fromLine ← instantiation.line_no
    pure (some (inst,
      { from' := fromLine, to' := none, blamed := some from_term, dep_type := dep_type,
        quant := instantiation.quant,
        quant_discovered := instantiation.quant_discovered }))

/-- `Z3Parser::add_blank_dependency_if_needed`: the no-cause placeholder
dependency recording that an instantiation has no discoverable cause. -/
def blank_dependency (quant : Nat) (quant_discovered : Bool) (match_line : Nat) : Dependency :=
  { from' := match_line, to' := none, blamed := none, dep_type := DepType.None,
    quant := quant, quant_discovered := quant_discovered }

/-! ## Event handlers (the `Z3LogParser` impl in `z3parser.rs`) -/

/-- Modelled from the spec: `semver::Version::parse` (an external crate);
valid semantic versions are `MAJOR.MINOR.PATCH` with numeric components. -/
def semverParse (s : String) : Option (Nat × Nat × Nat) :=
  match s.splitOn "." with
  | [a, b, c] => do pure (← parseNat a, ← parseNat b, ← parseNat c)
  | _ => none

/-- `version_info` handler: solver name and semantic version, nothing after
them. -/
def version_info (s : Z3Parser) (l : List String) : Option Z3Parser :=
  match l with
  | solver :: version :: rest => do
    let _ ← expect_completed rest
    let v ← semverParse version
    some { s with version_info := some { solver := solver, version := v } }
  | _ => none

/-- `mk_quant` handler: id, display name, variable count, then at least one
child term id (the `assert!(!children.is_empty())` panic is `none`).  Creates
a quantifier term and a paired `Quantifier` with matching index. -/
def mk_quant (s : Z3Parser) (l : List String) : Option Z3Parser :=
  match l with
  | idtok :: nametok :: numtok :: rest => do
    let full_id ← TermIdCow.parse idtok
    let quant_name := QuantKind.parse nametok
    let num_vars ← parseNat numtok
    let children ← gobble_children s rest
    if children.isEmpty then none
    else
      let qidx := s.quantifiers.length
      let term : Term :=
        { id := full_id, kind := TermKind.Quant qidx, meaning := none,
          child_ids := children, dep_term_ids := [], resp_inst := none,
          equality_expls := [] }
      let p := new_term s full_id term
      let q : Quantifier :=
        { num_vars := num_vars, kind := quant_name, term := some p.2,
          instances := [], cost := 0, vars := none }
      some { p.1 with quantifiers := p.1.quantifiers ++ [q] }
  | _ => none

/-- `mk_var` handler: id and variable kind tag, nothing after them. -/
def mk_var (s : Z3Parser) (l : List String) : Option Z3Parser :=
  match l with
  | idtok :: kindtok :: rest => do
    let full_id ← TermIdCow.parse idtok
    let kind ← TermKind.parse_var kindtok
    let _ ← expect_completed rest
    let term : Term :=
      { id := full_id, kind := kind, meaning := none, child_ids := [],
        dep_term_ids := [], resp_inst := none, equality_expls := [] }
    some (new_term s full_id term).1
  | _ => none

/-- `mk_proof_app` handler: id, application/proof kind tag, zero or more
already-resolvable child ids. -/
def mk_proof_app (s : Z3Parser) (is_proof : Bool) (l : List String) : Option Z3Parser :=
  match l with
  | idtok :: kindtok :: rest => do
    let full_id ← TermIdCow.parse idtok
    let kind := TermKind.parse_proof_app is_proof kindtok
    let children ← gobble_children s rest
    let term : Term :=
      { id := full_id, kind := kind, meaning := none, child_ids := children,
        dep_term_ids := [], resp_inst := none, equality_expls := [] }
    some (new_term s full_id term).1
  | _ => none

/-- `attach_meaning` handler: id, theory name, then the value tokens rejoined
with single spaces.  A second attachment must be equal to the first (the
`assert_eq!` panic is `none`), in which case the state is unchanged. -/
def attach_meaning (s : Z3Parser) (l : List String) : Option Z3Parser :=
  match l with
  | id :: theory :: rest => do
    let value := String.intercalate " " rest
    let meaning : Meaning := { theory := theory, value := value }
    let idx ← parse_existing_id s id
    let t ← s.terms.get? idx
    match t.meaning with
    | some old => if old = meaning then some s else none
    | none =>
      let terms' := listModify s.terms idx (fun t => { t with meaning := some meaning })
      some { s with terms := terms' }
  | _ => none

/-- `attach_var_names` handler: quantifier term id then the tuple list; the
target must be a quantifier term (`quant_idx().unwrap()`) with no metadata yet
(`assert!(vars.is_none())`). -/
def attach_var_names (s : Z3Parser) (l : List String) : Option Z3Parser :=
  match l with
  | idtok :: rest => do
    let var_names ← gobble_var_names_list rest
    let tidx ← parse_existing_id s idtok
    let t ← s.terms.get? tidx
    let qidx ← t.kind.quant_idx
    let q ← s.quantifiers.get? qidx
    if q.vars.isSome then none
    else
      let quantifiers' := listModify s.quantifiers qidx (fun q => { q with vars := some var_names })
      some { s with quantifiers := quantifiers' }
  | [] => none

/-- `attach_enode` handler: id and a generation number, nothing after them.
With a non-empty instantiation stack the top instantiation becomes the term's
producer and the term joins its yielded terms; with an empty stack the event
is accepted and the state is unchanged. -/
def attach_enode (s : Z3Parser) (l : List String) : Option Z3Parser :=
  match l with
  | id :: num :: rest => do
    let idx ← parse_existing_id s id
    let _n ← parseNat num
    let _ ← expect_completed rest
    match s.inst_stack with
    | [] => some s
    | inst :: _ => do
      let _ ← s.terms.get? idx
      let _ ← s.instantiations.get? inst
      some { s with
        terms := listModify s.terms idx (fun t => { t with resp_inst := some inst }),
        instantiations := listModify s.instantiations inst
          (fun j => { j with yields_terms := j.yields_terms ++ [idx] }) }
  | _ => none

/-- `eq_expl` handler: id, explanation kind tag, kind-specific fields up to a
`";"` terminator where applicable, then the destination id, nothing after it.
The explanation is recorded unless an equal one is already present. -/
def eq_expl (s : Z3Parser) (l : List String) : Option Z3Parser :=
  match l with
  | idtok :: kindtok :: rest => do
    let idx ← parse_existing_id s idtok
    let t ← s.terms.get? idx
    let v ←
      (if kindtok = "root" then
        match rest with
        | [] => some (EqualityExpl.Root idx)
        | _ => none
      else
        let p := iter_until_eq rest ";"
        if kindtok = "lit" then
          match p.1, p.2 with
          | [eqtok], totok :: rest2 => do
            let _ ← expect_completed rest2
            let eq ← parse_existing_id s eqtok
            let toIdx ← parse_existing_id s totok
            some (EqualityExpl.Literal idx eq toIdx)
          | _, _ => none
        else if kindtok = "cg" then
          match p.2 with
          | totok :: rest2 => do
            let _ ← expect_completed rest2
            let arg_eqs ← gobble_id_pairs s p.1
            let toIdx ← parse_existing_id s totok
            some (EqualityExpl.Congruence idx arg_eqs toIdx)
          | [] => none
        else if kindtok = "th" then
          match p.1, p.2 with
          | [theoryTok], totok :: rest2 => do
            let _ ← expect_completed rest2
            let toIdx ← parse_existing_id s totok
            some (EqualityExpl.Theory idx theoryTok toIdx)
          | _, _ => none
        else if kindtok = "ax" then
          match p.1, p.2 with
          | [], totok :: rest2 => do
            let _ ← expect_completed rest2
            let toIdx ← parse_existing_id s totok
            some (EqualityExpl.Axiom idx toIdx)
          | _, _ => none
        else
          match p.2 with
          | totok :: rest2 => do
            let _ ← expect_completed rest2
            let toIdx ← parse_existing_id s totok
            some (EqualityExpl.Unknown kindtok idx p.1 toIdx)
          | [] => none)
    if v ∈ t.equality_expls then some s
    else
      let terms' := listModify s.terms idx (fun t => { t with equality_expls := t.equality_expls ++ [v] })
      some { s with terms := terms' }
  | _ => none

/-! ## `new_match`, `inst_discovered`, `instance`, `end_of_instance` -/

/-- The local accumulators of `new_match`'s blamed-word loop: the
`equality_expls`, `blamed_terms` and `dep_instantiations` vectors plus the
dependencies pushed into the freshly created `temp_dependencies` bucket. -/
structure MatchAcc : Type where
  equality_expls : List Nat
  blamed_terms : List BlamedTermItem
  dep_instantiations : List Nat
  deps : List Dependency
deriving DecidableEq

/-- The inner `for eq in eqs.iter().filter(...)` loop of `new_match`: each
`Literal` explanation may contribute an equality dependency; all other
explanation kinds are skipped. -/
def process_eqs (s : Z3Parser) : List EqualityExpl → MatchAcc → Option MatchAcc
  | [], acc => some acc
  | e :: rest, acc =>
    match e with
    | EqualityExpl.Literal _ eq _ => do
      match ← add_dependency s eq DepType.Equality with
      | some r =>
        process_eqs s rest { acc with deps := acc.deps ++ [r.2],
                                      dep_instantiations := acc.dep_instantiations ++ [r.1] }
      | none => process_eqs s rest acc
    | _ => process_eqs s rest acc

/-- The `while let Some(word) = l.next()` loop of `new_match`: a word starting
with `(` pairs with the next word as an asserted equality (walking the first
term's matching equality explanations), any other word is a single blamed term
contributing a term-provenance dependency. -/
def new_match_blamed (s : Z3Parser) : List String → MatchAcc → Option MatchAcc
  | [], acc => some acc
  | word :: l, acc =>
    match stripPrefixOpt word "(" with
    | some first_term =>
      match l with
      | [] => none
      | w2 :: l2 => do
        let second_term ← stripSuffixOpt w2 ")"
        let fidx ← parse_existing_id s first_term
        let sidx ← parse_existing_id s second_term
        if fidx = sidx then
          new_match_blamed s l2
            { acc with blamed_terms := acc.blamed_terms ++ [BlamedTermItem.Pair fidx sidx] }
        else do
          let t ← s.terms.get? fidx
          let eqs := t.equality_expls.filter (fun e => decide (e.from_to = (fidx, sidx)))
          let acc2 ← process_eqs s eqs acc
          new_match_blamed s l2
            { acc2 with equality_expls := acc2.equality_expls ++ [fidx],
                        blamed_terms := acc2.blamed_terms ++ [BlamedTermItem.Pair fidx sidx] }
    | none => do
      let widx ← parse_existing_id s word
      let acc2 ←
        (match ← add_dependency s widx DepType.Term with
        | some r =>
          pure { acc with deps := acc.deps ++ [r.2],
                          dep_instantiations := acc.dep_instantiations ++ [r.1] }
        | none => pure acc)
      new_match_blamed s l
        { acc2 with blamed_terms := acc2.blamed_terms ++ [BlamedTermItem.Single widx] }

/-- `new_match` handler: fingerprint, pattern-owner term id (which must be a
quantifier term), pattern id, bound-term ids up to `";"`, then the blamed
words.  Creates the `temp_dependencies` bucket for `line_no + 1` (holding the
loop's dependencies, or the single blank no-cause dependency when none were
resolved) and a provisional `Instantiation` keyed by fingerprint. -/
def new_match (s : Z3Parser) (l : List String) (line_no : Nat) : Option Z3Parser :=
  match l with
  | fptok :: idtok :: pattok :: rest => do
    let fingerprint ← Fingerprint.parse fptok
    let idx ← parse_existing_id s idtok
    let t ← s.terms.get? idx
    let quant ← t.kind.quant_idx
    let pattern ← parse_existing_id s pattok
    let p := iter_until_eq rest ";"
    let bound_terms ← p.1.mapM (parse_existing_id s)
    let acc ← new_match_blamed s p.2 { equality_expls := [], blamed_terms := [],
                                       dep_instantiations := [], deps := [] }
    let deps := if acc.dep_instantiations.isEmpty
      then acc.deps ++ [blank_dependency quant false (line_no + 1)]
      else acc.deps
    let instant : Instantiation :=
      { match_line_no := line_no + 1, line_no := none, fingerprint := fingerprint,
        resulting_term := none, z3_gen := none, cost := 1, quant := quant,
        quant_discovered := false, pattern := some pattern, yields_terms := [],
        bound_terms := bound_terms, blamed_terms := acc.blamed_terms,
        equality_expls := acc.equality_expls,
        dep_instantiations := acc.dep_instantiations }
    some { s with temp_dependencies := ainsert s.temp_dependencies (line_no + 1) deps,
                  matches' := ainsert s.matches' fingerprint instant }
  | _ => none

/-- The blamed-id loop of `inst_discovered`'s theory-solving branch: each id
must resolve and may contribute a term-provenance dependency. -/
def ts_blamed (s : Z3Parser) : List String → Option (List BlamedTermItem × List Nat × List Dependency)
  | [] => some ([], [], [])
  | tok :: rest => do
    let id ← parse_existing_id s tok
    let r ← add_dependency s id DepType.Term
    let acc ← ts_blamed s rest
    match r with
    | some d => some (BlamedTermItem.Single id :: acc.1, d.1 :: acc.2.1, d.2 :: acc.2.2)
    | none => some (BlamedTermItem.Single id :: acc.1, acc.2.1, acc.2.2)

/-- `inst_discovered` handler: method tag (`theory-solving` or `MBQI`, others
rejected), fingerprint, then method-specific tokens.  Resolves or creates the
synthesized quantifier, builds dependencies like `new_match`, and records a
provisional discovered `Instantiation`. -/
def inst_discovered (s : Z3Parser) (l : List String) (line_no : Nat) : Option Z3Parser :=
  match l with
  | method :: fptok :: rest => do
    let fingerprint ← Fingerprint.parse fptok
    if method = "theory-solving" then
      match rest with
      | [] => none
      | ts_tok :: rest2 => do
        let ts_id ← TermIdCow.parse ts_tok
        let p := discovered_quant s (DiscoveredId.TheorySolving ts_id) method
        let blamedToks ←
          (match rest2 with
          | [] => some []
          | semi :: rest3 => if semi = ";" then some rest3 else none)
        let acc ← ts_blamed p.1 blamedToks
        let deps := if acc.2.1.isEmpty
          then acc.2.2 ++ [blank_dependency p.2 true (line_no + 1)]
          else acc.2.2
        let instant : Instantiation :=
          { match_line_no := line_no + 1, line_no := none, fingerprint := fingerprint,
            resulting_term := none, z3_gen := none, cost := 1, quant := p.2,
            quant_discovered := true, pattern := none, yields_terms := [],
            bound_terms := [], blamed_terms := acc.1, equality_expls := [],
            dep_instantiations := acc.2.1 }
        some { p.1 with
          temp_dependencies := ainsert p.1.temp_dependencies (line_no + 1) deps,
          matches' := ainsert p.1.matches' fingerprint instant }
    else if method = "MBQI" then do
      let p := discovered_quant s DiscoveredId.MBQI method
      let bound_terms ← rest.mapM (parse_existing_id p.1)
      let deps := [blank_dependency p.2 true (line_no + 1)]
      let instant : Instantiation :=
        { match_line_no := line_no + 1, line_no := none, fingerprint := fingerprint,
          resulting_term := none, z3_gen := none, cost := 1, quant := p.2,
          quant_discovered := true, pattern := none, yields_terms := [],
          bound_terms := bound_terms, blamed_terms := [], equality_expls := [],
          dep_instantiations := [] }
      some { p.1 with
        temp_dependencies := ainsert p.1.temp_dependencies (line_no + 1) deps,
        matches' := ainsert p.1.matches' fingerprint instant }
    else none
  | _ => none

/-- `instance` handler: fingerprint (which must name a pending provisional
instantiation — the `.expect` panic is `none`), an optional resulting term id,
and an optional `;`-separated generation number.  Promotes a clone of the
provisional record: sets its line number, appends it to the arena, pushes it
on the stack, and charges its quantifier. -/
def instance' (s : Z3Parser) (l : List String) (line_no : Nat) : Option Z3Parser :=
  match l with
  | fptok :: rest => do
    let fingerprint ← Fingerprint.parse fptok
    let inst0 ← alookup s.matches' fingerprint
    let inst1 := { inst0 with line_no := some (line_no + 1) }
    let qidx := inst1.quant
    let step1 ←
      (match rest with
      | [] => some (inst1, ([] : List String))
      | tok :: rest2 =>
        match parse_existing_id s tok with
        | some ridx =>
          if inst1.resulting_term.isSome then none
          else some ({ inst1 with resulting_term := some ridx }, rest2)
        | none => some (inst1, tok :: rest2))
    let inst2 ←
      (match step1.2 with
      | [] => some step1.1
      | ";" :: gen :: _ => (parseNat gen).map (fun g => { step1.1 with z3_gen := some g })
      | _ => none)
    let _ ← s.quantifiers.get? qidx
    let iidx := s.instantiations.length
    let quantifiers' := listModify s.quantifiers qidx
      (fun q => { q with instances := q.instances ++ [iidx], cost := q.cost + 1 })
    some { s with instantiations := s.instantiations ++ [inst2],
                  inst_stack := iidx :: s.inst_stack,
                  quantifiers := quantifiers' }
  | [] => none

/-- `end_of_instance` handler: pop the instantiation stack (the
`pop().unwrap()` panic on an empty stack is `none`), finalize every
dependency in the popped instantiation's `temp_dependencies` bucket by setting
its destination line and quantifier, and move them (draining the bucket) into
the permanent dependency list. -/
def end_of_instance (s : Z3Parser) : Option Z3Parser := do
  let iidx ← s.inst_stack.head?
  let inst ← s.instantiations.get? iidx
  let deps ← alookup s.temp_dependencies inst.match_line_no
  let finalized := deps.map (fun dep => { dep with to' := inst.line_no, quant := inst.quant })
  some { s with inst_stack := s.inst_stack.tail,
                dependencies := s.dependencies ++ finalized,
                temp_dependencies := aupdate s.temp_dependencies inst.match_line_no (fun _ => []) }

/-! ## The driver -/

/-- Modelled from the spec: the event kinds of the log, dispatched one-to-one
to the `Z3LogParser` handlers by the driver in `parsers/mod.rs` (not among the
sources).  Each event carries its already-tokenized payload. -/
inductive Event : Type where
  | version : List String → Event
  | mkQuant : List String → Event
  | mkVar : List String → Event
  | mkProofApp : Bool → List String → Event
  | attachMeaning : List String → Event
  | attachVarNames : List String → Event
  | attachEnode : List String → Event
  | eqExpl : List String → Event
  | newMatch : List String → Event
  | instDiscovered : List String → Event
  | instanceLine : List String → Event
  | endOfInstance : Event
deriving DecidableEq

/-- Modelled from the spec: the driver's per-line dispatch on the event tag;
`line_no` is the 0-based index of the line (the handlers use `line_no + 1` as
the 1-based line number, as in the source). -/
def dispatch (s : Z3Parser) (line_no : Nat) : Event → Option Z3Parser
  | Event.version l => version_info s l
  | Event.mkQuant l => mk_quant s l
  | Event.mkVar l => mk_var s l
  | Event.mkProofApp b l => mk_proof_app s b l
  | Event.attachMeaning l => attach_meaning s l
  | Event.attachVarNames l => attach_var_names s l
  | Event.attachEnode l => attach_enode s l
  | Event.eqExpl l => eq_expl s l
  | Event.newMatch l => new_match s l line_no
  | Event.instDiscovered l => inst_discovered s l line_no
  | Event.instanceLine l => instance' s l line_no
  | Event.endOfInstance => end_of_instance s

/-- Modelled from the spec: the driver processes lines one at a time; a
structural failure aborts processing of the remaining file and returns
everything parsed so far plus the failing (0-based) line number. -/
def process_lines : Z3Parser → Nat → List Event → Z3Parser × Option Nat
  | s, _, [] => (s, none)
  | s, n, e :: rest =>
    match dispatch s n e with
    | some s' => process_lines s' (n + 1) rest
    | none => (s, some n)

/-! ## The instantiation graph builder (`results.rs`) -/

/-- The graph under construction in `get_instantiation_graph`: the petgraph
node weights in insertion order (a node's index is its position), the edges as
pairs of node indices in insertion order, and the two `BTreeMap`s kept in sync
with the graph. -/
structure GraphState : Type where
  nodes : List Nat
  edges : List (Nat × Nat)
  node_of_line_nr : List (Nat × Nat)
  line_nr_of_node : List (Nat × Nat)
deriving DecidableEq

/-- The `fresh_line_nr` closure: no existing node carries this line number as
its weight. -/
def fresh_line_nr (nodes : List Nat) (line_nr : Nat) : Bool :=
  nodes.all (fun line => decide (line ≠ line_nr))

/-- The repeated block of `get_instantiation_graph`: if the line number is
fresh, `add_node` it (its index is the current node count) and record it in
both maps. -/
def graph_insert_line (g : GraphState) (line : Nat) : GraphState :=
  if fresh_line_nr g.nodes line then
    { g with nodes := g.nodes ++ [line],
             node_of_line_nr := ainsert g.node_of_line_nr line g.nodes.length,
             line_nr_of_node := ainsert g.line_nr_of_node g.nodes.length line }
  else g

/-- The body of the `for dep in &self.dependencies` loop of
`get_instantiation_graph`: skip theory instantiations (`quant_discovered`) and
dependencies without a destination; otherwise materialize the destination
node, and when the source line is positive also the source node plus one edge
between them. -/
def get_instantiation_graph_step (g : GraphState) (dep : Dependency) : GraphState :=
  if dep.quant_discovered then g
  else
    match dep.to' with
    | none => g
    | some toLine =>
      let g1 := graph_insert_line g toLine
      if 0 < dep.from' then
        let g2 := graph_insert_line g1 dep.from'
        match alookup g2.node_of_line_nr dep.from', alookup g2.node_of_line_nr toLine with
        | some fi, some ti => { g2 with edges := g2.edges ++ [(fi, ti)] }
        | _, _ => g2
      else g1

/-- `Z3Parser::get_instantiation_graph`: a single pass over the finalized
dependency list. -/
def get_instantiation_graph (s : Z3Parser) : GraphState :=
  s.dependencies.foldl get_instantiation_graph_step
    { nodes := [], edges := [], node_of_line_nr := [], line_nr_of_node := [] }

/-! ## The render-safety gate (`svg_result.rs`) -/

/-- The fixed edge limit of the render-safety gate. -/
def EDGE_LIMIT : Nat := 500

/-- The default node-count baseline of the render-safety gate. -/
def DEFAULT_NODE_COUNT : Nat := 125

/-- The `safe_to_render` condition computed in the `Msg::RenderGraph` branch
of `SVGResult::update`. -/
def safe_to_render (node_count edge_count : Nat)
    (node_count_decreased edge_count_decreased : Bool) : Bool :=
  decide (edge_count ≤ EDGE_LIMIT) || decide (node_count ≤ DEFAULT_NODE_COUNT) ||
    edge_count_decreased || node_count_decreased

/-- The `Msg::RenderGraph` decision: `true` when the branch proceeds to
render, `false` when it instead sends `Msg::GetUserPermission` (requesting
explicit user confirmation). -/
def render_proceeds (node_count edge_count : Nat)
    (node_count_decreased edge_count_decreased permission : Bool) : Bool :=
  safe_to_render node_count edge_count node_count_decreased edge_count_decreased || permission

/-! ## Predicates and concrete states used by the claims -/

/-- The dependencies that actually produce an edge in
`get_instantiation_graph`: not a theory/discovered instantiation, a known
destination, and a positive source line.  The dependency kind is *not*
consulted. -/
def edge_qualifying (d : Dependency) : Bool :=
  !d.quant_discovered && d.to'.isSome && decide (0 < d.from')

/-- The bookkeeping invariant of the graph builder: a line number appears as a
node weight exactly when `node_of_line_nr` knows a node for it. -/
def GraphInv (g : GraphState) : Prop :=
  ∀ w : Nat, w ∈ g.nodes ↔ (alookup g.node_of_line_nr w).isSome = true

/-- The claimed quantifier accounting invariant: the accumulated cost equals
1.0 (exactly represented) times the number of recorded instances. -/
def quant_cost_inv (s : Z3Parser) : Prop :=
  ∀ q ∈ s.quantifiers, q.cost = 1 * q.instances.length

/-- Spec-side description for claim C8: the index passed in the most recent
`register_term` call for that exact id, if any (scanning the call sequence
from the most recent call backwards). -/
def specLastRegistered (regs : List (String × Nat)) (id : String) : Option Nat :=
  (regs.reverse.find? (fun r => decide (r.1 = id))).map (fun r => r.2)

/-- A finalized no-cause dependency of a pattern-matched (not discovered)
instantiation, as `end_of_instance` produces it from the blank placeholder. -/
def C2dep : Dependency :=
  { from' := 1, to' := some 2, blamed := none, dep_type := DepType.None,
    quant := 0, quant_discovered := false }

/-- A parser state whose only finalized dependency is the no-cause dependency
`C2dep`. -/
def C2state : Z3Parser :=
  { Z3Parser.default with dependencies := [C2dep] }

/-- A closed pattern-matched instantiation (matched at line 3, instantiated
at line 5, not discovered). -/
def C3inst : Instantiation :=
  { match_line_no := 3, line_no := some 5, fingerprint := "f1",
    resulting_term := none, z3_gen := none, cost := 1, quant := 0,
    quant_discovered := false, pattern := none, yields_terms := [],
    bound_terms := [], blamed_terms := [], equality_expls := [],
    dep_instantiations := [] }

/-- A provisional dependency whose blaming instantiation was discovered
(`quant_discovered = true`), recorded under match line 3. -/
def C3dep : Dependency :=
  { from' := 2, to' := none, blamed := some 0, dep_type := DepType.Term,
    quant := 7, quant_discovered := true }

/-- A state about to close instantiation 0: `C3dep` waits in the temporary
bucket of `C3inst`'s match line. -/
def C3state : Z3Parser :=
  { Z3Parser.default with instantiations := [C3inst], inst_stack := [0],
                          temp_dependencies := [(3, [C3dep])] }

/-- A log whose final line re-uses fingerprint `fp1` through a second
`instance` event after the owning block was already popped. -/
def C4log : List Event :=
  [Event.mkVar ["#0", "x"],
   Event.mkQuant ["#1", "myquant", "1", "#0"],
   Event.newMatch ["fp1", "#1", "#0", ";"],
   Event.instanceLine ["fp1"],
   Event.endOfInstance,
   Event.instanceLine ["fp1"]]

/-- A provisional instantiation retained in the `matches` map. -/
def C4minst : Instantiation :=
  { match_line_no := 1, line_no := none, fingerprint := "fpw",
    resulting_term := none, z3_gen := none, cost := 1, quant := 0,
    quant_discovered := false, pattern := none, yields_terms := [],
    bound_terms := [], blamed_terms := [], equality_expls := [],
    dep_instantiations := [] }

/-- A quantifier available for `C4minst`'s promotion. -/
def C4quant : Quantifier :=
  { kind := QuantKind.Named "qw", num_vars := 0, term := none,
    instances := [], cost := 0, vars := none }

/-- A state (e.g. one reached after the owning block of `fpw` was popped)
whose `matches` map still binds `fpw`. -/
def C4mstate : Z3Parser :=
  { Z3Parser.default with quantifiers := [C4quant],
                          matches' := [("fpw", C4minst)] }

/-- A bound-variable term registered under id `#0`. -/
def C6term : Term :=
  { id := "#0", kind := TermKind.Var "x", meaning := none, child_ids := [],
    dep_term_ids := [], resp_inst := none, equality_expls := [] }

/-- An open instantiation sitting on top of the stack. -/
def C6inst : Instantiation :=
  { match_line_no := 1, line_no := some 2, fingerprint := "f2",
    resulting_term := none, z3_gen := none, cost := 1, quant := 0,
    quant_discovered := false, pattern := none, yields_terms := [],
    bound_terms := [], blamed_terms := [], equality_expls := [],
    dep_instantiations := [] }

/-- A state with one term and one open instantiation, ready for an
`attach-enode` event. -/
def C6state : Z3Parser :=
  { Z3Parser.default with
      idx_map := { term_map := [("#0", 0)], discovered_map := [] },
      terms := [C6term], instantiations := [C6inst], inst_stack := [0] }

/-- A term that already carries the meaning `arith 5`. -/
def C7term : Term :=
  { id := "#0", kind := TermKind.App "five", meaning := some { theory := "arith", value := "5" },
    child_ids := [], dep_term_ids := [], resp_inst := none, equality_expls := [] }

/-- A state holding `C7term` under id `#0`. -/
def C7state : Z3Parser :=
  { Z3Parser.default with
      idx_map := { term_map := [("#0", 0)], discovered_map := [] },
      terms := [C7term] }

/-- A quantifier with a consistent cost/instances account. -/
def C10quant : Quantifier :=
  { kind := QuantKind.Named "q", num_vars := 1, term := none,
    instances := [4, 7], cost := 2, vars := none }

/-- A state holding `C10quant`. -/
def C10state : Z3Parser :=
  { Z3Parser.default with quantifiers := [C10quant] }

/-! ## Helper lemmas about the association-list maps -/

theorem alookup_nil {α β : Type} [DecidableEq α] (k : α) :
    alookup ([] : List (α × β)) k = none := rfl

theorem alookup_ainsert_self {α β : Type} [DecidableEq α] (l : List (α × β)) (k : α) (v : β) :
    alookup (ainsert l k v) k = some v := by
  simp [alookup, ainsert, List.find?_cons]

theorem find?_filter_ne {α β : Type} [DecidableEq α] (l : List (α × β)) (k k' : α)
    (h : k' ≠ k) :
    (l.filter (fun p => decide (p.1 ≠ k))).find? (fun p => decide (p.1 = k')) =
      l.find? (fun p => decide (p.1 = k')) := by
  induction l with
  | nil => rfl
  | cons a l ih =>
    by_cases ha : a.1 = k
    · rw [List.filter_cons_of_neg (by simpa using ha), ih, List.find?_cons,
        show (decide (a.1 = k')) = false from
          decide_eq_false (by rw [ha]; exact fun he => h he.symm)]
    · rw [List.filter_cons_of_pos (by simpa using ha), List.find?_cons, List.find?_cons]
      cases hpa : decide (a.1 = k') with
      | true => rfl
      | false => exact ih

theorem alookup_ainsert_ne {α β : Type} [DecidableEq α] (l : List (α × β)) (k k' : α) (v : β)
    (h : k' ≠ k) : alookup (ainsert l k v) k' = alookup l k' := by
  unfold alookup ainsert
  rw [List.find?_cons,
    show (decide (k = k')) = false from decide_eq_false (fun he => h he.symm)]
  exact congrArg (Option.map (fun p => p.2)) (find?_filter_ne l k k' h)

theorem alookup_isSome_ainsert {α β : Type} [DecidableEq α] (l : List (α × β)) (k k' : α) (v : β)
    (h : (alookup l k').isSome = true) : (alookup (ainsert l k v) k').isSome = true := by
  by_cases hk : k' = k
  · subst hk; rw [alookup_ainsert_self]; rfl
  · rw [alookup_ainsert_ne l k k' v hk]; exact h

/-! ## Claim C1: the render-safety gate -/

/-- Claim C1 (counterexample): with a reduced edge count of 501 (above the
edge limit of 500), a node count of 100, and neither count decreased, the
`Msg::RenderGraph` branch proceeds to render without requesting user
confirmation — contradicting the claim that any exceeded threshold with no
size decrease requests confirmation. -/
theorem C1_counterexample :
    EDGE_LIMIT < 501 ∧ render_proceeds 100 501 false false false = true := by
  decide

/-- Claim C1 (amended): if *both* the reduced edge count exceeds the edge
limit (500) and the reduced node count exceeds the default node-count
baseline (125), and neither count decreased relative to the prior reduction,
then rendering does not proceed without explicit user confirmation
(`Msg::GetUserPermission` is sent), while an explicit permission does let it
proceed. -/
theorem C1_gate (node_count edge_count : Nat) (ncd ecd : Bool)
    (h1 : EDGE_LIMIT < edge_count) (h2 : DEFAULT_NODE_COUNT < node_count)
    (h3 : ncd = false) (h4 : ecd = false) :
    render_proceeds node_count edge_count ncd ecd false = false ∧
      render_proceeds node_count edge_count ncd ecd true = true := by
  subst h3 h4
  unfold render_proceeds safe_to_render
  simp [Nat.not_le.mpr h1, Nat.not_le.mpr h2]

/-- Claim C1 (witness): the gate at node count 126, edge count 501 with no
decrease. -/
theorem C1_witness :
    render_proceeds 126 501 false false false = false ∧
      render_proceeds 126 501 false false true = true :=
  C1_gate 126 501 false false (by decide) (by decide) rfl rfl

/-! ## Claim C9: determinism of the graph builder -/

/-- Claim C9: building the instantiation graph is a pure function of the
finalized dependency list — two states with the same dependencies (in
particular the same state twice) yield identical node index assignments,
line-number maps and edge sets. -/
theorem C9_deterministic (s1 s2 : Z3Parser) (h : s1.dependencies = s2.dependencies) :
    get_instantiation_graph s1 = get_instantiation_graph s2 := by
  unfold get_instantiation_graph
  rw [h]

/-- Claim C9 (witness): two distinct states with equal dependency lists
produce the same graph. -/
theorem C9_witness :
    get_instantiation_graph Z3Parser.default =
      get_instantiation_graph { Z3Parser.default with inst_stack := [3] } :=
  C9_deterministic _ _ rfl

/-! ## Claim C5: stack underflow aborts parsing -/

theorem process_lines_nil (s : Z3Parser) (n : Nat) :
    process_lines s n [] = (s, none) := rfl

theorem process_lines_cons (s : Z3Parser) (n : Nat) (e : Event) (rest : List Event) :
    process_lines s n (e :: rest) =
      match dispatch s n e with
      | some s' => process_lines s' (n + 1) rest
      | none => (s, some n) := rfl

theorem process_lines_append (pre : List Event) :
    ∀ (s0 : Z3Parser) (n : Nat) (s : Z3Parser) (tail : List Event),
      process_lines s0 n pre = (s, none) →
      process_lines s0 n (pre ++ tail) = process_lines s (n + pre.length) tail := by
  induction pre with
  | nil =>
    intro s0 n s tail h
    rw [process_lines_nil] at h
    obtain ⟨rfl, -⟩ : s0 = s ∧ (none : Option Nat) = none := by
      exact ⟨congrArg Prod.fst h, rfl⟩
    simp
  | cons e pre ih =>
    intro s0 n s tail h
    rw [process_lines_cons] at h
    rw [List.cons_append, process_lines_cons]
    cases hd : dispatch s0 n e with
    | none => rw [hd] at h; simp at h
    | some s1 =>
      rw [hd] at h
      show process_lines s1 (n + 1) (pre ++ tail) = _
      rw [ih s1 (n + 1) s tail h]
      have harith : n + 1 + pre.length = n + (e :: pre).length := by
        simp only [List.length_cons]; omega
      rw [harith]

/-- Claim C5: if a prefix of the log parses without failure and leaves the
instantiation stack empty, then an `end-of-instance` line next makes parsing
fail (the `inst_stack.pop().unwrap()` underflow), parse no further lines, and
return the state parsed so far together with the failing line number. -/
theorem C5_stack_underflow (pre rest : List Event) (s : Z3Parser)
    (h1 : process_lines Z3Parser.default 0 pre = (s, none))
    (h2 : s.inst_stack = []) :
    process_lines Z3Parser.default 0 (pre ++ Event.endOfInstance :: rest) =
      (s, some pre.length) := by
  rw [process_lines_append pre _ _ _ _ h1]
  unfold process_lines dispatch end_of_instance
  rw [h2]
  simp

/-- Claim C5 (witness): the empty prefix followed by `end-of-instance`. -/
theorem C5_witness :
    process_lines Z3Parser.default 0 ([] ++ Event.endOfInstance :: []) =
      (Z3Parser.default, some (List.length ([] : List Event))) :=
  C5_stack_underflow [] [] Z3Parser.default rfl rfl

/-! ## Claim C8: the identifier resolution table -/

theorem get_term_register_self (m : IdxMap) (id : String) (idx : Nat) :
    (m.register_term id idx).get_term id = some idx := by
  unfold IdxMap.register_term IdxMap.get_term
  exact alookup_ainsert_self m.term_map id idx

theorem get_term_register_ne (m : IdxMap) (id id' : String) (idx : Nat) (h : id' ≠ id) :
    (m.register_term id idx).get_term id' = m.get_term id' := by
  unfold IdxMap.register_term IdxMap.get_term
  exact alookup_ainsert_ne m.term_map id id' idx h

theorem registerAll_get_term (regs : List (String × Nat)) :
    ∀ (m : IdxMap) (id : String),
      (m.registerAll regs).get_term id =
        (match specLastRegistered regs id with
          | some v => some v
          | none => m.get_term id) := by
  induction regs with
  | nil => intro m id; rfl
  | cons r rest ih =>
    intro m id
    unfold IdxMap.registerAll at ih ⊢
    rw [List.foldl_cons]
    rw [ih (m.register_term r.1 r.2) id]
    unfold specLastRegistered
    rw [List.reverse_cons, List.find?_append]
    cases hfind : (rest.reverse.find? (fun p => decide (p.1 = id))) with
    | some v => rfl
    | none =>
      rw [Option.none_or]
      by_cases hr : r.1 = id
      · rw [List.find?_cons, show (decide (r.1 = id)) = true from decide_eq_true hr]
        subst hr
        rw [get_term_register_self]
        rfl
      · rw [List.find?_cons, show (decide (r.1 = id)) = false from decide_eq_false hr]
        rw [get_term_register_ne m r.1 id r.2 (fun he => hr he.symm)]
        rfl

/-- Claim C8: starting from the empty table, after any sequence of
`register_term` calls a `get_term` lookup returns exactly the index of the
most recent registration for that exact id (and `none` for an id never
registered); and no `register_term` call ever removes a binding — any id with
a binding still has one after any further registration. -/
theorem C8_register_lookup :
    (∀ (regs : List (String × Nat)) (id : String),
      (IdxMap.registerAll { term_map := [], discovered_map := [] } regs).get_term id =
        specLastRegistered regs id) ∧
    (∀ (m : IdxMap) (id id' : String) (idx : Nat),
      (m.get_term id).isSome = true →
      ((m.register_term id' idx).get_term id).isSome = true) := by
  constructor
  · intro regs id
    rw [registerAll_get_term regs _ id]
    cases h : specLastRegistered regs id with
    | none => rfl
    | some v => rfl
  · intro m id id' idx h
    by_cases he : id = id'
    · subst he; rw [get_term_register_self]; rfl
    · rw [get_term_register_ne m id' id idx he]; exact h

/-- Claim C8 (witness): the monotonicity part applied to a one-entry table. -/
theorem C8_witness :
    ((({ term_map := [("#1", 1)], discovered_map := [] } : IdxMap).register_term "#2" 2).get_term
      "#1").isSome = true :=
  C8_register_lookup.2 { term_map := [("#1", 1)], discovered_map := [] } "#1" "#2" 2 rfl

/-! ## Claim C2: which dependencies create edges -/

theorem fresh_line_nr_iff (nodes : List Nat) (w : Nat) :
    fresh_line_nr nodes w = true ↔ w ∉ nodes := by
  unfold fresh_line_nr
  simp [List.all_eq_true]
  constructor
  · intro h hw; exact (h w hw) rfl
  · intro h x hx hxw; exact h (hxw ▸ hx)

theorem graph_insert_line_edges (g : GraphState) (line : Nat) :
    (graph_insert_line g line).edges = g.edges := by
  unfold graph_insert_line
  split <;> rfl

theorem graphInv_insert_line {g : GraphState} (line : Nat) (h : GraphInv g) :
    GraphInv (graph_insert_line g line) := by
  unfold graph_insert_line
  split
  case isTrue hf =>
    intro w
    by_cases hw : w = line
    · subst hw
      simp only [List.mem_append, List.mem_singleton]
      rw [alookup_ainsert_self]
      simp
    · simp only [List.mem_append, List.mem_singleton]
      rw [alookup_ainsert_ne _ _ _ _ hw]
      rw [← h w]
      simp [hw]
  case isFalse => exact h

theorem alookup_insert_line_self {g : GraphState} (line : Nat) (h : GraphInv g) :
    (alookup (graph_insert_line g line).node_of_line_nr line).isSome = true := by
  unfold graph_insert_line
  split
  case isTrue hf => rw [alookup_ainsert_self]; rfl
  case isFalse hf =>
    have hmem : line ∈ g.nodes := by
      by_contra hc
      exact hf ((fresh_line_nr_iff g.nodes line).mpr hc)
    exact (h line).mp hmem

theorem alookup_insert_line_mono {g : GraphState} (line w : Nat)
    (h : (alookup g.node_of_line_nr w).isSome = true) :
    (alookup (graph_insert_line g line).node_of_line_nr w).isSome = true := by
  unfold graph_insert_line
  split
  case isTrue hf => exact alookup_isSome_ainsert _ _ _ _ h
  case isFalse => exact h

theorem step_of_discovered (g : GraphState) (d : Dependency)
    (h : d.quant_discovered = true) :
    get_instantiation_graph_step g d = g := by
  unfold get_instantiation_graph_step
  rw [h]
  rfl

theorem step_of_to_none (g : GraphState) (d : Dependency)
    (h1 : d.quant_discovered = false) (h2 : d.to' = none) :
    get_instantiation_graph_step g d = g := by
  unfold get_instantiation_graph_step
  rw [h1, h2]
  rfl

theorem step_of_from_zero (g : GraphState) (d : Dependency) (toLine : Nat)
    (h1 : d.quant_discovered = false) (h2 : d.to' = some toLine)
    (h3 : ¬ 0 < d.from') :
    get_instantiation_graph_step g d = graph_insert_line g toLine := by
  unfold get_instantiation_graph_step
  rw [h1, h2]
  show (if 0 < d.from' then _ else _) = _
  rw [if_neg h3]

theorem step_of_from_pos (g : GraphState) (d : Dependency) (toLine : Nat)
    (h1 : d.quant_discovered = false) (h2 : d.to' = some toLine)
    (h3 : 0 < d.from') :
    get_instantiation_graph_step g d =
      (match alookup (graph_insert_line (graph_insert_line g toLine) d.from').node_of_line_nr
          d.from',
        alookup (graph_insert_line (graph_insert_line g toLine) d.from').node_of_line_nr
          toLine with
      | some fi, some ti =>
        { graph_insert_line (graph_insert_line g toLine) d.from' with
            edges := (graph_insert_line (graph_insert_line g toLine) d.from').edges ++ [(fi, ti)] }
      | _, _ => graph_insert_line (graph_insert_line g toLine) d.from') := by
  unfold get_instantiation_graph_step
  rw [h1, h2]
  show (if 0 < d.from' then _ else _) = _
  rw [if_pos h3]

theorem step_edges_count {g : GraphState} (d : Dependency) (h : GraphInv g) :
    (get_instantiation_graph_step g d).edges.length
        = g.edges.length + (if edge_qualifying d then 1 else 0)
      ∧ GraphInv (get_instantiation_graph_step g d) := by
  cases hqd : d.quant_discovered with
  | true =>
    rw [step_of_discovered g d hqd]
    constructor
    · simp [edge_qualifying, hqd]
    · exact h
  | false =>
    cases hto : d.to' with
    | none =>
      rw [step_of_to_none g d hqd hto]
      constructor
      · simp [edge_qualifying, hqd, hto]
      · exact h
    | some toLine =>
      have hinv1 : GraphInv (graph_insert_line g toLine) := graphInv_insert_line toLine h
      by_cases hfrom : 0 < d.from'
      · rw [step_of_from_pos g d toLine hqd hto hfrom]
        have hinv2 : GraphInv (graph_insert_line (graph_insert_line g toLine) d.from') :=
          graphInv_insert_line d.from' hinv1
        have hfi : (alookup (graph_insert_line (graph_insert_line g toLine) d.from').node_of_line_nr
            d.from').isSome = true := alookup_insert_line_self d.from' hinv1
        have hti : (alookup (graph_insert_line (graph_insert_line g toLine) d.from').node_of_line_nr
            toLine).isSome = true :=
          alookup_insert_line_mono d.from' toLine (alookup_insert_line_self toLine h)
        obtain ⟨fi, hfi'⟩ := Option.isSome_iff_exists.mp hfi
        obtain ⟨ti, hti'⟩ := Option.isSome_iff_exists.mp hti
        rw [hfi', hti']
        constructor
        · show ((graph_insert_line (graph_insert_line g toLine) d.from').edges ++ [(fi, ti)]).length
            = _
          rw [List.length_append, graph_insert_line_edges, graph_insert_line_edges]
          simp [edge_qualifying, hqd, hto, hfrom]
        · exact hinv2
      · rw [step_of_from_zero g d toLine hqd hto hfrom]
        constructor
        · rw [graph_insert_line_edges]
          simp [edge_qualifying, hqd, hto, hfrom]
        · exact hinv1

theorem foldl_step_edges (deps : List Dependency) :
    ∀ (g : GraphState), GraphInv g →
      (deps.foldl get_instantiation_graph_step g).edges.length
        = g.edges.length + (deps.filter edge_qualifying).length := by
  induction deps with
  | nil => intro g _; simp
  | cons d deps ih =>
    intro g hg
    rw [List.foldl_cons]
    obtain ⟨hlen, hinv⟩ := step_edges_count d hg
    rw [ih _ hinv, hlen]
    by_cases hq : edge_qualifying d = true
    · rw [List.filter_cons_of_pos hq]
      simp [hq]
      omega
    · rw [List.filter_cons_of_neg hq]
      simp [hq]

/-- Claim C2 (counterexample): a finalized no-cause `Dependency`
(`dep_type = DepType.None`) with a known destination does create an edge in
`get_instantiation_graph` — contradicting the claim that a kind-"none"
dependency never creates one. -/
theorem C2_counterexample :
    C2state.dependencies = [C2dep] ∧ C2dep.dep_type = DepType.None ∧
      (get_instantiation_graph C2state).edges.length = 1 := by
  decide

/-- Claim C2 (amended): edges of the instantiation graph correspond 1:1 to
finalized `Dependency` records that are not marked `quant_discovered`, have a
non-`None` destination, and a positive source line — the dependency kind is
never consulted, so a kind-"none" dependency with those properties creates an
edge like any other. -/
theorem C2_edge_correspondence (s : Z3Parser) :
    (get_instantiation_graph s).edges.length =
      (s.dependencies.filter edge_qualifying).length := by
  unfold get_instantiation_graph
  rw [foldl_step_edges s.dependencies _ (fun w => by simp [alookup_nil, Option.isSome])]
  simp

/-! ## Claim C3: what `end_of_instance` finalizes -/

/-- Claim C3 (counterexample): `end_of_instance` does *not* set the
discovered-flag of the finalized dependencies to the popped instantiation's
flag — `C3state`'s popped instantiation has `quant_discovered = false`, yet
the finalized dependency keeps the `quant_discovered = true` recorded at
creation. -/
theorem C3_counterexample :
    C3inst.quant_discovered = false ∧
      (end_of_instance C3state).map
          (fun st => st.dependencies.map Dependency.quant_discovered) = some [true] := by
  decide

/-- Claim C3 (amended): for every end-of-instance event popping instantiation
`inst`, every provisional dependency under `inst`'s match line is finalized by
setting its destination line to `inst`'s line number and its quantifier field
to `inst`'s owning quantifier — its discovered-flag (and every other field) is
left exactly as recorded at creation — and the finalized dependencies are
moved into the permanent list, emptying the temporary bucket. -/
theorem C3_finalize (s : Z3Parser) (iidx : Nat) (stk : List Nat) (inst : Instantiation)
    (deps : List Dependency)
    (h1 : s.inst_stack = iidx :: stk)
    (h2 : s.instantiations.get? iidx = some inst)
    (h3 : alookup s.temp_dependencies inst.match_line_no = some deps) :
    end_of_instance s = some
      { s with inst_stack := stk,
               dependencies := s.dependencies ++
                 deps.map (fun dep => { dep with to' := inst.line_no, quant := inst.quant }),
               temp_dependencies :=
                 aupdate s.temp_dependencies inst.match_line_no (fun _ => []) }
    ∧ ∀ dep : Dependency,
        ({ dep with to' := inst.line_no, quant := inst.quant } : Dependency).quant_discovered
            = dep.quant_discovered ∧
        ({ dep with to' := inst.line_no, quant := inst.quant } : Dependency).blamed = dep.blamed ∧
        ({ dep with to' := inst.line_no, quant := inst.quant } : Dependency).dep_type
            = dep.dep_type ∧
        ({ dep with to' := inst.line_no, quant := inst.quant } : Dependency).from' = dep.from' := by
  constructor
  · unfold end_of_instance
    rw [h1]
    simp only [List.head?_cons, Option.bind_eq_bind, Option.some_bind, List.tail_cons]
    rw [h2]
    simp only [Option.some_bind]
    rw [h3]
    simp only [Option.some_bind]
  · intro dep
    exact ⟨rfl, rfl, rfl, rfl⟩

/-- Claim C3 (witness): the finalization applied to `C3state`. -/
theorem C3_witness :
    end_of_instance C3state = some
      { C3state with inst_stack := ([] : List Nat),
                     dependencies := C3state.dependencies ++
                       [C3dep].map (fun dep =>
                         { dep with to' := C3inst.line_no, quant := C3inst.quant }),
                     temp_dependencies :=
                       aupdate C3state.temp_dependencies C3inst.match_line_no (fun _ => []) } :=
  (C3_finalize C3state 0 [] C3inst [C3dep] rfl rfl rfl).1

/-! ## Claim C4: fingerprint lifecycle -/

/-- Claim C4 (counterexample): in `C4log`, fingerprint `fp1` is looked up by a
second `instance` event after its owning block was popped; the parser does not
fail (all six lines parse) and a second, independent instantiation is created
— contradicting the claim that such a lookup is a parser error. -/
theorem C4_counterexample :
    (process_lines Z3Parser.default 0 C4log).2 = none ∧
      (process_lines Z3Parser.default 0 C4log).1.instantiations.length = 2 := by
  decide

/-- Claim C4 (amended): the `matches` map holds at most one provisional
record per fingerprint, but the record is *not* removed when the owning block
is popped: `instance` never changes the map and appends one new
`Instantiation` per use, `end_of_instance` never changes the map, and an
`instance` event whose fingerprint is still bound (even after a pop) succeeds
against the retained record instead of failing — so a reused fingerprint
creates, on each use, an independent `Instantiation`. -/
theorem C4_fingerprint_reuse :
    (∀ (s : Z3Parser) (l : List String) (n : Nat) (s' : Z3Parser),
      instance' s l n = some s' →
      s'.matches' = s.matches' ∧
        s'.instantiations.length = s.instantiations.length + 1) ∧
    (∀ (s s' : Z3Parser), end_of_instance s = some s' → s'.matches' = s.matches') ∧
    (∀ (s : Z3Parser) (fp : String) (m : Instantiation) (n : Nat),
      Fingerprint.parse fp = some fp →
      alookup s.matches' fp = some m →
      m.resulting_term = none →
      (s.quantifiers.get? m.quant).isSome = true →
      (instance' s [fp] n).isSome = true) := by
  refine ⟨?_, ?_, ?_⟩
  · intro s l n s' h
    cases l with
    | nil => simp [instance'] at h
    | cons fptok rest =>
      unfold instance' at h
      simp only [Option.bind_eq_bind, Option.bind_eq_some] at h
      obtain ⟨fp, -, inst0, -, step1, -, inst2, -, q, -, h⟩ := h
      obtain rfl : _ = s' := Option.some.inj h
      refine ⟨rfl, ?_⟩
      simp
  · intro s s' h
    unfold end_of_instance at h
    simp only [Option.bind_eq_bind, Option.bind_eq_some] at h
    obtain ⟨iidx, -, inst, -, deps, -, h⟩ := h
    obtain rfl : _ = s' := Option.some.inj h
    rfl
  · intro s fp m n hparse hlookup hres hq
    obtain ⟨q, hq'⟩ := Option.isSome_iff_exists.mp hq
    simp only [instance', hparse, Option.bind_eq_bind, Option.some_bind]
    rw [hlookup]
    have hq2 : s.quantifiers[m.quant]? = some q := by
      rw [← List.get?_eq_getElem?]
      exact hq'
    simp [hres, hq2]

/-- Claim C2 (witness): the correspondence evaluated at `C2state`. -/
theorem C2_witness :
    (get_instantiation_graph C2state).edges.length =
      (C2state.dependencies.filter edge_qualifying).length :=
  C2_edge_correspondence C2state

/-- Claim C4 (witness): an `instance` event on the still-bound fingerprint
succeeds. -/
theorem C4_witness : (instance' C4mstate ["fpw"] 9).isSome = true :=
  C4_fingerprint_reuse.2.2 C4mstate "fpw" C4minst 9 rfl rfl rfl rfl

/-! ## Claim C6: attach-enode -/

/-- Claim C6: a well-formed attach-enode event on an existing term either (a)
finds an empty instantiation stack and is accepted with the parser state
completely unchanged, or (b) records the top-of-stack instantiation as the
term's responsible instantiation and appends the term's index to that
instantiation's yielded-terms list, changing nothing else. -/
theorem C6_attach_enode (s : Z3Parser) (id num : String) (idx k : Nat)
    (hid : parse_existing_id s id = some idx) (hnum : parseNat num = some k) :
    (s.inst_stack = [] → attach_enode s [id, num] = some s) ∧
    (∀ (i : Nat) (tl : List Nat) (t : Term) (inst : Instantiation),
      s.inst_stack = i :: tl →
      s.terms.get? idx = some t →
      s.instantiations.get? i = some inst →
      attach_enode s [id, num] = some
        { s with terms := listModify s.terms idx (fun u => { u with resp_inst := some i }),
                 instantiations := listModify s.instantiations i
                   (fun j => { j with yields_terms := j.yields_terms ++ [idx] }) }) := by
  constructor
  · intro hstk
    simp only [attach_enode, hid, hnum, Option.bind_eq_bind, Option.some_bind, hstk]
    rfl
  · intro i tl t inst hstk ht hinst
    simp only [attach_enode, hid, hnum, Option.bind_eq_bind, Option.some_bind, hstk, ht, hinst]
    rfl

/-- Claim C6 (witness): the non-empty-stack case on `C6state`. -/
theorem C6_witness :
    attach_enode C6state ["#0", "5"] = some
      { C6state with
          terms := listModify C6state.terms 0 (fun u => { u with resp_inst := some 0 }),
          instantiations := listModify C6state.instantiations 0
            (fun j => { j with yields_terms := j.yields_terms ++ [0] }) } :=
  (C6_attach_enode C6state "#0" "5" 0 5 rfl rfl).2 0 [] C6term C6inst rfl rfl rfl

/-! ## Claim C7: attach-meaning consistency -/

/-- Claim C7: re-attaching a meaning to a term that already has one succeeds
with the state (hence the term) completely unchanged exactly when the new
meaning — theory name plus the value tokens rejoined with single spaces — is
equal to the existing one, and fails (the `assert_eq!` consistency violation)
otherwise; a term's meaning is therefore attached at most once and never
altered afterwards. -/
theorem C7_attach_meaning (s : Z3Parser) (id theory : String) (rest : List String)
    (idx : Nat) (t : Term) (old : Meaning)
    (hid : parse_existing_id s id = some idx)
    (ht : s.terms.get? idx = some t)
    (hold : t.meaning = some old) :
    attach_meaning s (id :: theory :: rest) =
      (if old = { theory := theory, value := String.intercalate " " rest }
        then some s else none) := by
  simp only [attach_meaning, hid, ht, Option.bind_eq_bind, Option.some_bind, hold]

/-- Claim C7 (witness): re-attaching the identical meaning `arith 5` leaves
`C7state` unchanged. -/
theorem C7_witness : attach_meaning C7state ["#0", "arith", "5"] = some C7state := by
  have h := C7_attach_meaning C7state "#0" "arith" ["5"] 0 C7term
    { theory := "arith", value := "5" } rfl rfl rfl
  rwa [if_pos (by decide)] at h

/-! ## Claim C10: the quantifier cost/instances account

One lemma per event handler describing its effect on the quantifier arena. -/

theorem mem_listModify {α : Type} (l : List α) (i : Nat) (f : α → α) (x : α)
    (h : x ∈ listModify l i f) : x ∈ l ∨ ∃ y, y ∈ l ∧ x = f y := by
  induction l generalizing i with
  | nil => simp [listModify] at h
  | cons a l ih =>
    cases i with
    | zero =>
      rcases List.mem_cons.mp h with rfl | hx
      · exact Or.inr ⟨a, List.mem_cons_self a l, rfl⟩
      · exact Or.inl (List.mem_cons_of_mem a hx)
    | succ i =>
      rcases List.mem_cons.mp h with rfl | hx
      · exact Or.inl (List.mem_cons_self x l)
      · rcases ih i hx with hl | ⟨y, hy, rfl⟩
        · exact Or.inl (List.mem_cons_of_mem a hl)
        · exact Or.inr ⟨y, List.mem_cons_of_mem a hy, rfl⟩

theorem version_info_quantifiers (s : Z3Parser) (l : List String) (s' : Z3Parser)
    (h : version_info s l = some s') : s'.quantifiers = s.quantifiers := by
  rcases l with - | ⟨solver, - | ⟨version, rest⟩⟩
  · simp [version_info] at h
  · simp [version_info] at h
  · simp only [version_info, Option.bind_eq_bind, Option.bind_eq_some] at h
    obtain ⟨u, -, v, -, h⟩ := h
    obtain rfl : _ = s' := Option.some.inj h
    rfl

theorem mk_var_quantifiers (s : Z3Parser) (l : List String) (s' : Z3Parser)
    (h : mk_var s l = some s') : s'.quantifiers = s.quantifiers := by
  rcases l with - | ⟨idtok, - | ⟨kindtok, rest⟩⟩
  · simp [mk_var] at h
  · simp [mk_var] at h
  · simp only [mk_var, Option.bind_eq_bind, Option.bind_eq_some] at h
    obtain ⟨fid, -, k, -, u, -, h⟩ := h
    obtain rfl : _ = s' := Option.some.inj h
    rfl

theorem mk_proof_app_quantifiers (s : Z3Parser) (b : Bool) (l : List String) (s' : Z3Parser)
    (h : mk_proof_app s b l = some s') : s'.quantifiers = s.quantifiers := by
  rcases l with - | ⟨idtok, - | ⟨kindtok, rest⟩⟩
  · simp [mk_proof_app] at h
  · simp [mk_proof_app] at h
  · simp only [mk_proof_app, Option.bind_eq_bind, Option.bind_eq_some] at h
    obtain ⟨fid, -, ch, -, h⟩ := h
    obtain rfl : _ = s' := Option.some.inj h
    rfl

theorem attach_meaning_quantifiers (s : Z3Parser) (l : List String) (s' : Z3Parser)
    (h : attach_meaning s l = some s') : s'.quantifiers = s.quantifiers := by
  rcases l with - | ⟨id, - | ⟨theory, rest⟩⟩
  · simp [attach_meaning] at h
  · simp [attach_meaning] at h
  · simp only [attach_meaning, Option.bind_eq_bind, Option.bind_eq_some] at h
    obtain ⟨idx, -, t, -, h⟩ := h
    split at h
    · split at h
      · obtain rfl : _ = s' := Option.some.inj h
        rfl
      · simp at h
    · obtain rfl : _ = s' := Option.some.inj h
      rfl

theorem attach_enode_quantifiers (s : Z3Parser) (l : List String) (s' : Z3Parser)
    (h : attach_enode s l = some s') : s'.quantifiers = s.quantifiers := by
  rcases l with - | ⟨id, - | ⟨num, rest⟩⟩
  · simp [attach_enode] at h
  · simp [attach_enode] at h
  · simp only [attach_enode, Option.bind_eq_bind, Option.bind_eq_some] at h
    obtain ⟨idx, -, k, -, u, -, h⟩ := h
    split at h
    · obtain rfl : _ = s' := Option.some.inj h
      rfl
    · simp only [Option.bind_eq_bind, Option.bind_eq_some] at h
      obtain ⟨t, -, inst, -, h⟩ := h
      obtain rfl : _ = s' := Option.some.inj h
      rfl

theorem eq_expl_quantifiers (s : Z3Parser) (l : List String) (s' : Z3Parser)
    (h : eq_expl s l = some s') : s'.quantifiers = s.quantifiers := by
  rcases l with - | ⟨idtok, - | ⟨kindtok, rest⟩⟩
  · simp [eq_expl] at h
  · simp [eq_expl] at h
  · simp only [eq_expl, Option.bind_eq_bind, Option.bind_eq_some] at h
    obtain ⟨idx, -, t, -, v, -, h⟩ := h
    split at h
    · obtain rfl : _ = s' := Option.some.inj h
      rfl
    · obtain rfl : _ = s' := Option.some.inj h
      rfl

theorem new_match_quantifiers (s : Z3Parser) (l : List String) (n : Nat) (s' : Z3Parser)
    (h : new_match s l n = some s') : s'.quantifiers = s.quantifiers := by
  rcases l with - | ⟨fptok, - | ⟨idtok, - | ⟨pattok, rest⟩⟩⟩
  · simp [new_match] at h
  · simp [new_match] at h
  · simp [new_match] at h
  · simp only [new_match, Option.bind_eq_bind, Option.bind_eq_some] at h
    obtain ⟨fp, -, idx, -, t, -, quant, -, pat, -, bts, -, acc, -, h⟩ := h
    obtain rfl : _ = s' := Option.some.inj h
    rfl

theorem end_of_instance_quantifiers (s : Z3Parser) (s' : Z3Parser)
    (h : end_of_instance s = some s') : s'.quantifiers = s.quantifiers := by
  simp only [end_of_instance, Option.bind_eq_bind, Option.bind_eq_some] at h
  obtain ⟨iidx, -, inst, -, deps, -, h⟩ := h
  obtain rfl : _ = s' := Option.some.inj h
  rfl

theorem mk_quant_quantifiers (s : Z3Parser) (l : List String) (s' : Z3Parser)
    (h : mk_quant s l = some s') :
    ∃ q : Quantifier, s'.quantifiers = s.quantifiers ++ [q] ∧
      q.instances = [] ∧ q.cost = 0 := by
  rcases l with - | ⟨idtok, - | ⟨nametok, - | ⟨numtok, rest⟩⟩⟩
  · simp [mk_quant] at h
  · simp [mk_quant] at h
  · simp [mk_quant] at h
  · simp only [mk_quant, Option.bind_eq_bind, Option.bind_eq_some] at h
    obtain ⟨fid, -, nv, -, ch, -, h⟩ := h
    split at h
    · simp at h
    · obtain rfl : _ = s' := Option.some.inj h
      exact ⟨_, rfl, rfl, rfl⟩

theorem attach_var_names_quantifiers (s : Z3Parser) (l : List String) (s' : Z3Parser)
    (h : attach_var_names s l = some s') :
    ∃ (qidx : Nat) (vn : VarNames),
      s'.quantifiers = listModify s.quantifiers qidx (fun q => { q with vars := some vn }) := by
  rcases l with - | ⟨idtok, rest⟩
  · simp [attach_var_names] at h
  · simp only [attach_var_names, Option.bind_eq_bind, Option.bind_eq_some] at h
    obtain ⟨vn, -, tidx, -, t, -, qidx, -, q, -, h⟩ := h
    split at h
    · simp at h
    · obtain rfl : _ = s' := Option.some.inj h
      exact ⟨qidx, vn, rfl⟩

theorem discovered_quant_quantifiers (s : Z3Parser) (id : DiscoveredId) (method : String) :
    (discovered_quant s id method).1.quantifiers = s.quantifiers ∨
    ∃ q : Quantifier, (discovered_quant s id method).1.quantifiers = s.quantifiers ++ [q] ∧
      q.instances = [] ∧ q.cost = 0 := by
  unfold discovered_quant
  split
  · exact Or.inl rfl
  · exact Or.inr ⟨_, rfl, rfl, rfl⟩

theorem inst_discovered_quantifiers (s : Z3Parser) (l : List String) (n : Nat) (s' : Z3Parser)
    (h : inst_discovered s l n = some s') :
    s'.quantifiers = s.quantifiers ∨
    ∃ q : Quantifier, s'.quantifiers = s.quantifiers ++ [q] ∧
      q.instances = [] ∧ q.cost = 0 := by
  rcases l with - | ⟨method, - | ⟨fptok, rest⟩⟩
  · simp [inst_discovered] at h
  · simp [inst_discovered] at h
  · simp only [inst_discovered, Option.bind_eq_bind, Option.bind_eq_some] at h
    obtain ⟨fp, -, h⟩ := h
    split at h
    · rcases rest with - | ⟨ts_tok, rest2⟩
      · simp at h
      · simp only [Option.bind_eq_bind, Option.bind_eq_some] at h
        obtain ⟨tsid, -, btoks, -, acc, -, h⟩ := h
        obtain rfl : _ = s' := Option.some.inj h
        exact discovered_quant_quantifiers s (DiscoveredId.TheorySolving tsid) method
    · split at h
      · simp only [Option.bind_eq_bind, Option.bind_eq_some] at h
        obtain ⟨bts, -, h⟩ := h
        obtain rfl : _ = s' := Option.some.inj h
        exact discovered_quant_quantifiers s DiscoveredId.MBQI method
      · simp at h

theorem instance'_quantifiers (s : Z3Parser) (l : List String) (n : Nat) (s' : Z3Parser)
    (h : instance' s l n = some s') :
    ∃ (qidx iidx : Nat),
      s'.quantifiers = listModify s.quantifiers qidx
        (fun q => { q with instances := q.instances ++ [iidx], cost := q.cost + 1 }) := by
  rcases l with - | ⟨fptok, rest⟩
  · simp [instance'] at h
  · simp only [instance', Option.bind_eq_bind, Option.bind_eq_some] at h
    obtain ⟨fp, -, inst0, -, step1, -, inst2, -, q, -, h⟩ := h
    obtain rfl : _ = s' := Option.some.inj h
    exact ⟨inst0.quant, s.instantiations.length, rfl⟩

theorem quant_cost_inv_of_eq {s s' : Z3Parser} (h : s'.quantifiers = s.quantifiers)
    (hinv : quant_cost_inv s) : quant_cost_inv s' := by
  intro q hq
  rw [h] at hq
  exact hinv q hq

theorem quant_cost_inv_append {s s' : Z3Parser} {q : Quantifier}
    (h : s'.quantifiers = s.quantifiers ++ [q]) (hq1 : q.instances = []) (hq2 : q.cost = 0)
    (hinv : quant_cost_inv s) : quant_cost_inv s' := by
  intro x hx
  rw [h] at hx
  rcases List.mem_append.mp hx with hx | hx
  · exact hinv x hx
  · obtain rfl : x = q := List.mem_singleton.mp hx
    rw [hq1, hq2]
    rfl

theorem quant_cost_inv_modify_vars {s s' : Z3Parser} {qidx : Nat} {vn : VarNames}
    (h : s'.quantifiers = listModify s.quantifiers qidx (fun q => { q with vars := some vn }))
    (hinv : quant_cost_inv s) : quant_cost_inv s' := by
  intro x hx
  rw [h] at hx
  rcases mem_listModify _ _ _ _ hx with hx | ⟨y, hy, rfl⟩
  · exact hinv x hx
  · exact hinv y hy

theorem quant_cost_inv_instance_modify {s s' : Z3Parser} {qidx iidx : Nat}
    (h : s'.quantifiers = listModify s.quantifiers qidx
      (fun q => { q with instances := q.instances ++ [iidx], cost := q.cost + 1 }))
    (hinv : quant_cost_inv s) : quant_cost_inv s' := by
  intro x hx
  rw [h] at hx
  rcases mem_listModify _ _ _ _ hx with hx | ⟨y, hy, rfl⟩
  · exact hinv x hx
  · have hy' := hinv y hy
    show y.cost + 1 = 1 * (y.instances ++ [iidx]).length
    rw [List.length_append, List.length_singleton]
    omega

/-- Claim C10: every parser event handler keeps the invariant that each
quantifier's accumulated cost equals 1.0 (exact) times the length of its
instances list — both start at zero on creation (declared via `mk_quant` or
discovered via `discovered_quant`) and only the `instance` handler updates
them, appending one instantiation index and adding 1 to the cost; the empty
initial state satisfies the invariant. -/
theorem C10_cost_invariant :
    (∀ (s : Z3Parser) (n : Nat) (e : Event) (s' : Z3Parser),
      dispatch s n e = some s' → quant_cost_inv s → quant_cost_inv s') ∧
    quant_cost_inv Z3Parser.default := by
  constructor
  · intro s n e s' h hinv
    cases e with
    | version l => exact quant_cost_inv_of_eq (version_info_quantifiers s l s' h) hinv
    | mkQuant l =>
      obtain ⟨q, hq, h1, h2⟩ := mk_quant_quantifiers s l s' h
      exact quant_cost_inv_append hq h1 h2 hinv
    | mkVar l => exact quant_cost_inv_of_eq (mk_var_quantifiers s l s' h) hinv
    | mkProofApp b l => exact quant_cost_inv_of_eq (mk_proof_app_quantifiers s b l s' h) hinv
    | attachMeaning l => exact quant_cost_inv_of_eq (attach_meaning_quantifiers s l s' h) hinv
    | attachVarNames l =>
      obtain ⟨qidx, vn, hq⟩ := attach_var_names_quantifiers s l s' h
      exact quant_cost_inv_modify_vars hq hinv
    | attachEnode l => exact quant_cost_inv_of_eq (attach_enode_quantifiers s l s' h) hinv
    | eqExpl l => exact quant_cost_inv_of_eq (eq_expl_quantifiers s l s' h) hinv
    | newMatch l => exact quant_cost_inv_of_eq (new_match_quantifiers s l n s' h) hinv
    | instDiscovered l =>
      rcases inst_discovered_quantifiers s l n s' h with hq | ⟨q, hq, h1, h2⟩
      · exact quant_cost_inv_of_eq hq hinv
      · exact quant_cost_inv_append hq h1 h2 hinv
    | instanceLine l =>
      obtain ⟨qidx, iidx, hq⟩ := instance'_quantifiers s l n s' h
      exact quant_cost_inv_instance_modify hq hinv
    | endOfInstance => exact quant_cost_inv_of_eq (end_of_instance_quantifiers s s' h) hinv
  · intro q hq
    simp [Z3Parser.default] at hq

/-- Claim C10 (witness): the invariant preserved by a concrete event on a
state holding a consistently accounted quantifier. -/
theorem C10_witness :
    quant_cost_inv ((dispatch C10state 0 (Event.mkVar ["#0", "x"])).getD Z3Parser.default) :=
  C10_cost_invariant.1 C10state 0 (Event.mkVar ["#0", "x"]) _ rfl
    (by
      intro q hq
      obtain rfl : q = C10quant :=
        List.mem_singleton.mp (show q ∈ [C10quant] from hq)
      rfl)

end AxiomProfiler
